import Mathlib

/-!
Verification development for `circuit.py`, a circuit-style workout planning
shell.  The definitions below are a shallow embedding of the schedule
projection and progressive-overload rendering engine: the weekly layout
builder (`_layout_core`), the log appender (`do_log` / `log add`), the
export wrapper (`do_layout` / `layout export`), the single-group lookup
(`do_layout` / `layout index NUM`), and the `index remove` command path.

Python strings are embedded as Lean `String`; Python `str.split(",")` and
`str.strip()` are re-implemented character-by-character (`pySplit`,
`pyStrip`) so that all definitions evaluate inside the kernel.  Calendar
dates are embedded with the proleptic Gregorian rules `datetime.date` uses
(`nextDate`, Sakamoto day-of-week), and `strftime` codes `%a %A %m %d %y %Y`
are embedded directly.
-/

/-! ## Python string primitives -/

/-- Whitespace recognized by Python `str.strip()` (the subset that can occur
in the day fields handled here). -/
def isSpaceChar (c : Char) : Bool :=
  c = ' ' || c = '\t' || c = '\n' || c = '\r'

/-- Python `s.strip()`: drop leading and trailing whitespace. -/
def pyStrip (s : String) : String :=
  String.mk (((s.data.dropWhile isSpaceChar).reverse.dropWhile isSpaceChar).reverse)

/-- Helper for `pySplit`: split a character list on a separator character,
Python style (the empty list yields one empty field). -/
def pySplitChar (sep : Char) : List Char → List (List Char)
  | [] => [[]]
  | c :: rest =>
    let r := pySplitChar sep rest
    if c = sep then [] :: r
    else
      match r with
      | [] => [[c]]
      | h :: t => (c :: h) :: t

/-- Python `s.split(sep)` for a one-character separator: `"".split(",") = [""]`,
`"a,,b".split(",") = ["a", "", "b"]`. -/
def pySplit (s : String) (sep : Char) : List String :=
  (pySplitChar sep s.data).map String.mk

/-- Value of a decimal digit character, `none` for non-digits. -/
def pyDigit (c : Char) : Option Nat :=
  if c = '0' then some 0 else if c = '1' then some 1 else if c = '2' then some 2
  else if c = '3' then some 3 else if c = '4' then some 4 else if c = '5' then some 5
  else if c = '6' then some 6 else if c = '7' then some 7 else if c = '8' then some 8
  else if c = '9' then some 9 else none

/-- Decimal value of a non-empty digit string, `none` on any non-digit. -/
def pyDigits : List Char → Option Nat
  | [] => none
  | cs => cs.foldl (fun acc c =>
      match acc, pyDigit c with
      | some n, some d => some (n * 10 + d)
      | _, _ => none) (some 0)

/-- Python `int(s)` restricted to optionally-signed decimal literals, as a
partial function (`none` models the `ValueError`). -/
def pyParseInt (s : String) : Option Int :=
  match s.data with
  | [] => none
  | '-' :: rest => (pyDigits rest).map (fun n => -(n : Int))
  | cs => (pyDigits cs).map (fun n => (n : Int))

/-! ## Calendar (the fragment of `datetime.date` the program uses) -/

/-- A Gregorian calendar date (`datetime.date`): year, month (1-12),
day (1-..). -/
structure Date where
  year : Nat
  month : Nat
  day : Nat
deriving DecidableEq, Repr

/-- Gregorian leap-year rule. -/
def isLeap (y : Nat) : Bool :=
  (y % 4 = 0 && y % 100 ≠ 0) || y % 400 = 0

/-- Number of days in a month. -/
def daysInMonth (y m : Nat) : Nat :=
  if m = 2 then (if isLeap y then 29 else 28)
  else if m = 4 || m = 6 || m = 9 || m = 11 then 30
  else 31

/-- The day after `d` (`d + timedelta(days=1)`). -/
def nextDate (d : Date) : Date :=
  if d.day < daysInMonth d.year d.month then ⟨d.year, d.month, d.day + 1⟩
  else if d.month < 12 then ⟨d.year, d.month + 1, 1⟩
  else ⟨d.year + 1, 1, 1⟩

/-- Sakamoto month offsets for the day-of-week computation. -/
def sakamotoT : List Nat := [0, 3, 2, 5, 0, 3, 5, 1, 4, 6, 2, 4]

/-- Day of week of a Gregorian date, 0 = Sunday .. 6 = Saturday
(Sakamoto's method; agrees with `datetime.date.strftime("%a")`). -/
def dayOfWeek (d : Date) : Nat :=
  let y := if d.month < 3 then d.year - 1 else d.year
  (y + y / 4 - y / 100 + y / 400 + sakamotoT.getD (d.month - 1) 0 + d.day) % 7

/-- `strftime("%a")` names indexed by `dayOfWeek`. -/
def weekdayShortNames : List String :=
  ["Sun", "Mon", "Tue", "Wed", "Thu", "Fri", "Sat"]

/-- `strftime("%A")` names indexed by `dayOfWeek`. -/
def weekdayFullNames : List String :=
  ["Sunday", "Monday", "Tuesday", "Wednesday", "Thursday", "Friday", "Saturday"]

/-- `d.strftime("%a")`. -/
def weekdayShortName (d : Date) : String :=
  weekdayShortNames.getD (dayOfWeek d) "Sun"

/-- `d.strftime("%A")`. -/
def weekdayFullName (d : Date) : String :=
  weekdayFullNames.getD (dayOfWeek d) "Sunday"

/-- Zero-padded two-digit rendering (`strftime` `%m`, `%d`). -/
def pad2 (n : Nat) : String :=
  if n < 10 then "0" ++ toString n else toString n

/-- `strftime("%y")`: the year modulo 100, zero-padded to two digits. -/
def twoDigitYear (y : Nat) : String := pad2 (y % 100)

/-- The 7 consecutive dates starting at `today` inclusive
(`[today + timedelta(days=i) for i in range(7)]`). -/
def next7Days (today : Date) : List Date :=
  (List.range 7).map (fun i => nextDate^[i] today)

/-! ## Data model -/

/-- A row of the `groups` table together with its `exercises` rows
(exercise names in insertion, i.e. `ORDER BY id`, order).  `days` is the
raw comma-joined TEXT column. -/
structure GroupRec where
  id : Nat
  name : String
  reps_per_cycle : Nat
  cycles_per_circuit : Nat
  days : String
  add_reps : Nat
  add_cycles : Nat
  exercises : List String
deriving DecidableEq, Repr

/-- The three process-wide display settings of `CircuitShell`. -/
structure Settings where
  date_display_format : Int
  exercise_display_format : Int
  group_display_enabled : Bool
deriving DecidableEq, Repr

/-- The defaults set in `CircuitShell.__init__`. -/
def defaultSettings : Settings := ⟨1, 3, true⟩

/-! ## Weekly layout builder (`_layout_core`) -/

/-- `valid_days_order` from `_layout_core`. -/
def validDaysOrder : List String :=
  ["Mon", "Tue", "Wed", "Thu", "Fri", "Sat", "Sun"]

/-- `[d.strip() for d in group['days'].split(',') if d.strip() in valid_days_order]`
(the day-slot list `_layout_core` iterates). -/
def parse_days (days : String) : List String :=
  ((pySplit days ',').map pyStrip).filter (fun d => d ∈ validDaysOrder)

/-- The occurrence indices `_layout_core` assigns to a group's slots matching
weekday `day`: from `for occ_idx, day in enumerate(days_list, start=1)`, the
1-based positions (among ALL slots) of the slots equal to `day`. -/
def matchingSlots (g : GroupRec) (day : String) : List Nat :=
  (parse_days g.days).enum.filterMap
    (fun p => if p.2 = day then some (p.1 + 1) else none)

/-- The `day_workouts[day]` bucket of `_layout_core`: for each group in store
order, its matching slots with their occurrence indices. -/
def dayWorkouts (groups : List GroupRec) (day : String) : List (GroupRec × Nat) :=
  groups.flatMap (fun g =>
    (parse_days g.days).enum.filterMap
      (fun p => if p.2 = day then some (g, p.1 + 1) else none))

/-- The nested `exercise_format(reps, cycles, fmt)` helper (identical copies
appear in `_layout_core`, `do_index` and `do_layout`). -/
def exercise_format (reps cycles : Nat) (fmt : Int) : String :=
  if fmt = 1 then
    toString reps ++ " reps each per cycle\n" ++ toString cycles ++ " cycles in circuit"
  else if fmt = 2 then
    toString reps ++ " reps\n" ++ toString cycles ++ " cycles"
  else if fmt = 3 then
    toString reps ++ " reps | " ++ toString cycles ++ " cycles"
  else if fmt = 4 then
    toString reps ++ "r " ++ toString cycles ++ "c"
  else
    toString reps ++ " reps each per cycle\n" ++ toString cycles ++ " cycles in circuit"

/-- The date header `_layout_core` prints for a date under
`date_display_format` (codes 1-4; anything else falls to the final `else`,
which prints the `%a` name exactly like code 1).  Code 4 is
`%-m/%-d/%y`: month and day without leading zeros, two-digit year. -/
def date_display (fmt : Int) (d : Date) : String :=
  if fmt = 1 then weekdayShortName d
  else if fmt = 2 then weekdayFullName d
  else if fmt = 3 then toString d.month ++ "/" ++ toString d.day
  else if fmt = 4 then
    toString d.month ++ "/" ++ toString d.day ++ "/" ++ twoDigitYear d.year
  else weekdayShortName d

/-- The overload projection computed inline in `_layout_core` (lines 815-816)
and `do_log` (lines 912-913):
`reps = reps_per_cycle + add_reps * occ_idx`,
`cycles = cycles_per_circuit + add_cycles * occ_idx`. -/
def project (base_reps base_cycles add_reps add_cycles occurrence_index : Nat) :
    Nat × Nat :=
  (base_reps + add_reps * occurrence_index,
   base_cycles + add_cycles * occurrence_index)

/-- `for idx, ex in enumerate(exercises, 1): print(f"{idx}. {ex}")`. -/
def numberedExercises (exs : List String) : List String :=
  exs.enum.map (fun p => toString (p.1 + 1) ++ ". " ++ p.2)

/-- The lines `_layout_core` prints for one `(group, occ_idx)` workout:
optional group name, numbered exercises, formatted reps/cycles, blank
separator.  Each list element is one `print_info` payload. -/
def group_section (s : Settings) (g : GroupRec) (occ_idx : Nat) : List String :=
  let rc := project g.reps_per_cycle g.cycles_per_circuit g.add_reps g.add_cycles occ_idx
  (if s.group_display_enabled then [g.name] else [])
    ++ numberedExercises g.exercises
    ++ [exercise_format rc.1 rc.2 s.exercise_display_format]
    ++ [""]

/-- The lines `_layout_core` prints for one date: nothing when the weekday
has no matching slots (`continue`), otherwise the date header followed by
every workout's section. -/
def date_section (s : Settings) (groups : List GroupRec) (d : Date) : List String :=
  let workouts := dayWorkouts groups (weekdayShortName d)
  if workouts.isEmpty then []
  else
    date_display s.date_display_format d ::
      workouts.flatMap (fun p => group_section s p.1 p.2)

/-- `_layout_core`: all `print_info` payloads of one full weekly layout,
for store contents `groups` (in `ORDER BY id` order) and current date
`today`. -/
def layout_core (s : Settings) (groups : List GroupRec) (today : Date) : List String :=
  if groups.isEmpty then ["No workout groups available."]
  else (next7Days today).flatMap (date_section s groups)

/-- Byte content produced by a sequence of `print_info` payloads (each call
appends the payload plus a newline). -/
def renderBytes (lines : List String) : String :=
  String.join (lines.map (fun l => l ++ "\n"))

/-- The `(date-index, group, occurrence-index)` triples `_layout_core`
visits, in visit order. -/
def layoutEntries (groups : List GroupRec) (today : Date) : List (Nat × GroupRec × Nat) :=
  (next7Days today).enum.flatMap (fun p =>
    (dayWorkouts groups (weekdayShortName p.2)).map (fun q => (p.1, q.1, q.2)))

/-- Strict lexicographic order on layout entries:
date index, then group id, then slot occurrence index. -/
def entryLexLt (a b : Nat × GroupRec × Nat) : Prop :=
  a.1 < b.1 ∨ (a.1 = b.1 ∧
    (a.2.1.id < b.2.1.id ∨ (a.2.1.id = b.2.1.id ∧ a.2.2 < b.2.2)))

/-! ## Log appender (`do_log`, `log add`) -/

/-- `[d.strip() for d in group['days'].split(",")]` — the unfiltered list
`do_log` uses for the membership test. -/
def log_split_days (days : String) : List String :=
  (pySplit days ',').map pyStrip

/-- `[d.strip() for d in group_days.split(",") if d.strip()]` — the list
`get_occurrence_index` scans (empty fields dropped, tokens NOT validated). -/
def log_days_nonempty (days : String) : List String :=
  (log_split_days days).filter (fun d => d ≠ "")

/-- `get_occurrence_index(group_days, day)` from `do_log`: 1-based position
of the FIRST slot equal to `day` (the loop breaks on the first match),
falling back to 1 when `day` does not occur. -/
def get_occurrence_index (group_days day : String) : Nat :=
  match (log_days_nonempty group_days).enum.find? (fun p => p.2 = day) with
  | some p => p.1 + 1
  | none => 1

/-- The `log_lines` contribution of one group in `do_log`/`log add`: empty
when the group is not scheduled on `day` or has no exercises; otherwise ONE
block (name header, numbered exercises, reps line, cycles line) at the
occurrence index `get_occurrence_index` returns. -/
def logGroupBlock (g : GroupRec) (day : String) : List String :=
  if day ∈ log_split_days g.days then
    if g.exercises.isEmpty then []
    else
      let occ := get_occurrence_index g.days day
      let rc := project g.reps_per_cycle g.cycles_per_circuit g.add_reps g.add_cycles occ
      ("\n" ++ g.name ++ ":") :: numberedExercises g.exercises
        ++ [toString rc.1 ++ " reps", toString rc.2 ++ " cycles"]
  else []

/-- `"-" * 40`. -/
def separator40 : String := String.mk (List.replicate 40 '-')

/-- `f"Workout Log for {log_date.strftime('%m/%d/%y')} ({log_day_name}):"`. -/
def logHeaderLine (d : Date) : String :=
  "Workout Log for " ++ pad2 d.month ++ "/" ++ pad2 d.day ++ "/" ++
    twoDigitYear d.year ++ " (" ++ weekdayShortName d ++ "):"

/-- Outcome of `log add`: the console `print_info` payloads and the single
text block appended to the log sink (`none` when nothing is written). -/
structure LogResult where
  console : List String
  sinkWrite : Option String
deriving DecidableEq, Repr

/-- `do_log`/`log add` for a parsed `log_date` and store contents `groups`
(in `ORDER BY id` order).  Mirrors the source: empty store short-circuits;
per group, skip when the weekday is not in the (unfiltered) day list or the
group has no exercises; when no group contributed, report the no-op and
write nothing; otherwise append header, blocks and the 40-dash separator
as one joined write. -/
def do_log_add (groups : List GroupRec) (log_date : Date) : LogResult :=
  let day := weekdayShortName log_date
  if groups.isEmpty then ⟨["No workout groups available."], none⟩
  else
    let blocks := groups.flatMap (fun g => logGroupBlock g day)
    if blocks.isEmpty then
      ⟨["No workouts scheduled for " ++ weekdayFullName log_date ++ " (" ++ day ++
          "), nothing added."], none⟩
    else
      ⟨["Workout layout for " ++ pad2 log_date.month ++ "/" ++ pad2 log_date.day ++
          "/" ++ twoDigitYear log_date.year ++ " added to log."],
       some (String.intercalate "\n" (logHeaderLine log_date :: blocks ++ [separator40])
              ++ "\n")⟩

/-- Byte content of the append-only log sink after a `log add` outcome,
given its prior content. -/
def sinkAfter (prior : String) (w : Option String) : String :=
  match w with
  | none => prior
  | some t => prior ++ t

/-! ## Export wrapper (`do_layout`, `layout export`) -/

/-- The fixed ASCII banner written first to the export buffer (the raw
string literal in `do_layout`). -/
def exportHeader : String :=
  "        \n  ___(_)_ __ ___ _   _(_) |_ \n / __| | \x27__/ __| | | | | __|\n| (__| | | | (__| |_| | | |_ \n \\___|_|_|  \\___|\\__,_|_|\\__|\n                             \n"

/-- `f"circuit_schedule[{date.today().strftime('%Y-%m-%d')}].txt"`. -/
def exportFilename (today : Date) : String :=
  "circuit_schedule[" ++ toString today.year ++ "-" ++ pad2 today.month ++ "-" ++
    pad2 today.day ++ "].txt"

/-- `layout export`: the banner goes into the buffer, then `do_layout("")`
runs `_layout_core` with `print_info` redirected to append each payload plus
a newline; the buffer is then written wholesale to `exportFilename`.
Returns (filename, file content). -/
def do_layout_export (s : Settings) (groups : List GroupRec) (today : Date) :
    String × String :=
  let buf := (layout_core s groups today).foldl
    (fun b line => b ++ (line ++ "\n")) exportHeader
  (exportFilename today, buf)

/-! ## Single-group lookup (`do_layout`, `layout index NUM`) -/

/-- `[d.strip() for d in (group['days'] or "").split(",") if d.strip()]`
from the `layout index` branch. -/
def scheduled_days (g : GroupRec) : List String :=
  log_days_nonempty g.days

/-- The reps/cycles values the `layout index NUM` branch renders: occurrence
index fixed at 1 whenever any scheduled day exists, plain base values
otherwise. -/
def layout_index_repscycles (g : GroupRec) : Nat × Nat :=
  if ¬(scheduled_days g).isEmpty then
    (g.reps_per_cycle + g.add_reps * 1, g.cycles_per_circuit + g.add_cycles * 1)
  else
    (g.reps_per_cycle, g.cycles_per_circuit)

/-! ## The `index remove` command path (`do_index`) -/

/-- A Python exception, as far as the control loop can observe it. -/
inductive PyExc where
  | nameError (name : String)
  | keyboardInterrupt
deriving DecidableEq, Repr

/-- The `__main__` loop wraps `shell.cmdloop()` in
`try: ... except KeyboardInterrupt: ...` only; `cmd.Cmd.onecmd` catches
nothing, so every other exception escaping a command ends the process. -/
def mainLoopCatches : PyExc → Bool
  | .keyboardInterrupt => true
  | _ => false

/-- Local names bound anywhere in `do_index` (Python function scope). -/
def doIndexLocalNames : List String :=
  ["self", "arg", "c", "groups", "print_groups", "parts", "cmd", "index_parts",
   "indexes", "invalid_indexes", "groups_to_remove", "resp", "e",
   "removed_group_ids", "removed_names", "new_groups", "idx", "group", "prefix",
   "group_brief", "group_id", "exercises", "exercise_format", "i", "ex", "days",
   "reps", "cycles", "fmt", "group_names"]

/-- Module-level names of `circuit.py` (imports, constants, helpers, the
shell class). -/
def moduleGlobalNames : List String :=
  ["cmd", "re", "sqlite3", "datetime", "os", "StringIO", "DB_FILENAME",
   "LOG_FILENAME", "prompt_input", "print_info", "print_usage", "print_error",
   "print_EOF", "print_no_index_number", "print_index_does_not_exist",
   "CircuitShell", "shell"]

/-- `index remove NUM [...]` from `do_index`, as a fallible computation:
`Except.ok` carries the console payloads of an error-free-or-reported
return, `Except.error` a Python exception escaping the command.  After the
index validation succeeds the source evaluates `if not skip_confirm:` — a
name bound neither in the function, nor at module level, nor a builtin — so
that point raises `NameError`. -/
def do_index_remove (groups : List GroupRec) (index_parts : List String) :
    Except PyExc (List String) :=
  if groups.isEmpty then .ok ["No workout groups available."]
  else if index_parts.isEmpty then
    .ok ["ERROR: Specify index(es) to remove, e.g. \x27index remove 2 3\x27."]
  else
    match index_parts.mapM pyParseInt with
    | none => .ok ["ERROR: All indexes must be valid integers."]
    | some indexes =>
      let invalid_indexes :=
        indexes.filter (fun i => decide (i < 1 ∨ (groups.length : Int) < i))
      if ¬invalid_indexes.isEmpty then
        .ok ["ERROR: Index(es) do not exist: " ++
              String.intercalate ", " (invalid_indexes.map toString)]
      else if "skip_confirm" ∈ doIndexLocalNames ++ moduleGlobalNames then
        .ok []
      else
        .error (.nameError "skip_confirm")

/-! ## Concrete store states used to instantiate the theorems -/

/-- The spec's `days = [Mon, Wed, Mon]` example group. -/
def mwmGroup : GroupRec := ⟨1, "G", 10, 3, "Mon,Wed,Mon", 2, 1, ["Squats"]⟩

/-- A group listing the same weekday twice. -/
def dupGroup : GroupRec := ⟨1, "G", 10, 3, "Mon,Mon", 2, 1, ["Squats"]⟩

/-- A store with one ordinary group, on which `index remove 1` is a valid
removal request. -/
def removeTargetGroup : GroupRec :=
  ⟨1, "Leg Day", 10, 3, "Mon,Thu", 2, 0, ["Squats", "Lunges"]⟩

/-- A group scheduled only on Tuesday. -/
def tueGroup : GroupRec := ⟨1, "T", 8, 2, "Tue", 1, 0, ["Rows"]⟩

/-- An unscheduled group (`days` empty, the `N/A` case). -/
def naGroup : GroupRec := ⟨1, "U", 8, 2, "", 1, 0, ["Rows"]⟩

/-- A scheduled companion group with a distinct id. -/
def monGroup : GroupRec := ⟨2, "M", 10, 3, "Mon", 2, 1, ["Squats", "Lunges"]⟩

/-- A group scheduled `Wed,Mon`: its Monday slot is its second slot. -/
def wedMonGroup : GroupRec := ⟨3, "W", 5, 4, "Wed,Mon", 3, 2, ["Dips"]⟩

/-! ## Helper lemmas -/

lemma string_foldl_append (l : List String) (b : String) :
    l.foldl (fun r s => r ++ s) b = b ++ l.foldl (fun r s => r ++ s) "" := by
  induction l generalizing b with
  | nil => simp
  | cons x t ih =>
    show t.foldl _ (b ++ x) = b ++ t.foldl _ ("" ++ x)
    rw [ih (b ++ x), ih ("" ++ x)]
    simp [String.append_assoc]

lemma string_append_foldl (g : String → String) (l : List String) (b : String) :
    l.foldl (fun acc x => acc ++ g x) b = b ++ String.join (l.map g) := by
  induction l generalizing b with
  | nil => simp [String.join]
  | cons x t ih =>
    show t.foldl (fun acc x => acc ++ g x) (b ++ g x) = _
    rw [ih (b ++ g x)]
    show _ = b ++ List.foldl (fun r s => r ++ s) "" (g x :: List.map g t)
    rw [List.foldl_cons, string_foldl_append (List.map g t) ("" ++ g x)]
    simp [String.join, String.append_assoc]

/-! ## C2 -/

/-- C2: the overload projection used by `_layout_core` and `do_log` returns
exactly `(base_reps + add_reps * k, base_cycles + add_cycles * k)` for every
occurrence index `k ≥ 1`, with no upper bound or clamping, and both
components are monotonically non-decreasing in `k`. -/
theorem project_formula_and_monotone (base_r base_c add_r add_c k k2 : Nat)
    (hk : 1 ≤ k) (hk2 : k ≤ k2) :
    project base_r base_c add_r add_c k = (base_r + add_r * k, base_c + add_c * k) ∧
    (project base_r base_c add_r add_c k).1 ≤ (project base_r base_c add_r add_c k2).1 ∧
    (project base_r base_c add_r add_c k).2 ≤ (project base_r base_c add_r add_c k2).2 := by
  refine ⟨rfl, ?_, ?_⟩
  · exact Nat.add_le_add_left (Nat.mul_le_mul (le_refl add_r) hk2) base_r
  · exact Nat.add_le_add_left (Nat.mul_le_mul (le_refl add_c) hk2) base_c

/-- Witness for C2: the spec's own end-to-end scenario, occurrence 2 of
`{reps 10, cycles 3, add_reps 2, add_cycles 0}` gives reps 14, cycles 3. -/
theorem project_formula_and_monotone_witness :
    (1 : Nat) ≤ 2 ∧ (2 : Nat) ≤ 3 ∧
    (project 10 3 2 0 2 = (10 + 2 * 2, 3 + 0 * 2) ∧
     (project 10 3 2 0 2).1 ≤ (project 10 3 2 0 3).1 ∧
     (project 10 3 2 0 2).2 ≤ (project 10 3 2 0 3).2) :=
  ⟨by decide, by decide,
   project_formula_and_monotone 10 3 2 0 2 3 (by decide) (by decide)⟩

/-! ## C6 -/

/-- C6: for every format code outside {1,2,3,4} the exercise/cycle renderer
and the date renderer both fall back to exactly the code-1 output, and the
four exercise/cycle format strings are exactly those of the table. -/
theorem format_code_fallback (r c : Nat) (fmt : Int) (d : Date)
    (h : fmt ≠ 1 ∧ fmt ≠ 2 ∧ fmt ≠ 3 ∧ fmt ≠ 4) :
    exercise_format r c fmt = exercise_format r c 1 ∧
    date_display fmt d = date_display 1 d ∧
    exercise_format r c 1 =
      toString r ++ " reps each per cycle\n" ++ toString c ++ " cycles in circuit" ∧
    exercise_format r c 2 = toString r ++ " reps\n" ++ toString c ++ " cycles" ∧
    exercise_format r c 3 = toString r ++ " reps | " ++ toString c ++ " cycles" ∧
    exercise_format r c 4 = toString r ++ "r " ++ toString c ++ "c" := by
  obtain ⟨h1, h2, h3, h4⟩ := h
  refine ⟨?_, ?_, by norm_num [exercise_format], by norm_num [exercise_format],
    by norm_num [exercise_format], by norm_num [exercise_format]⟩
  · simp [exercise_format, h1, h2, h3, h4]
  · simp [date_display, h1, h2, h3, h4]

/-- Witness for C6 at code 7 (outside 1-4) with the spec's scenario values
reps 16, cycles 6 and the date January 6, 2025. -/
theorem format_code_fallback_witness :
    ((7 : Int) ≠ 1 ∧ (7 : Int) ≠ 2 ∧ (7 : Int) ≠ 3 ∧ (7 : Int) ≠ 4) ∧
    (exercise_format 16 6 7 = exercise_format 16 6 1 ∧
     date_display 7 ⟨2025, 1, 6⟩ = date_display 1 ⟨2025, 1, 6⟩ ∧
     exercise_format 16 6 1 =
       toString 16 ++ " reps each per cycle\n" ++ toString 6 ++ " cycles in circuit" ∧
     exercise_format 16 6 2 = toString 16 ++ " reps\n" ++ toString 6 ++ " cycles" ∧
     exercise_format 16 6 3 = toString 16 ++ " reps | " ++ toString 6 ++ " cycles" ∧
     exercise_format 16 6 4 = toString 16 ++ "r " ++ toString 6 ++ "c") :=
  ⟨by decide, format_code_fallback 16 6 7 ⟨2025, 1, 6⟩ (by decide)⟩

/-! ## C9 -/

/-- C9: `layout export` writes to the file
`circuit_schedule[YYYY-MM-DD].txt` (the current date) exactly the fixed
ASCII banner followed by the byte-rendering of the same line sequence the
weekly layout builder produces under the current settings. -/
theorem export_is_banner_plus_layout (s : Settings) (groups : List GroupRec)
    (today : Date) :
    do_layout_export s groups today =
      ("circuit_schedule[" ++ toString today.year ++ "-" ++ pad2 today.month ++
         "-" ++ pad2 today.day ++ "].txt",
       exportHeader ++ renderBytes (layout_core s groups today)) := by
  unfold do_layout_export
  rw [string_append_foldl (fun line => line ++ "\n")]
  rfl

/-! ## C10 -/

/-- C10: the `layout index NUM` branch never uses a slot-specific occurrence
index: any group with a non-empty parsed `days` list gets
`reps_per_cycle + add_reps * 1` and `cycles_per_circuit + add_cycles * 1`
(occurrence fixed at 1), and an unscheduled group gets the bare base
values. -/
theorem layout_index_occurrence_fixed_at_one (g : GroupRec) :
    (¬(scheduled_days g).isEmpty →
      layout_index_repscycles g =
        (g.reps_per_cycle + g.add_reps * 1, g.cycles_per_circuit + g.add_cycles * 1)) ∧
    ((scheduled_days g).isEmpty →
      layout_index_repscycles g = (g.reps_per_cycle, g.cycles_per_circuit)) := by
  constructor <;> intro h <;> simp [layout_index_repscycles, h]

/-- Witness for C10: a group scheduled `Mon,Wed,Mon` (several slots) gets the
occurrence-1 projection; an unscheduled group gets the base values. -/
theorem layout_index_occurrence_fixed_at_one_witness :
    (¬(scheduled_days ⟨1, "A", 10, 3, "Mon,Wed,Mon", 2, 1, ["Squats"]⟩).isEmpty ∧
     layout_index_repscycles ⟨1, "A", 10, 3, "Mon,Wed,Mon", 2, 1, ["Squats"]⟩ =
       (10 + 2 * 1, 3 + 1 * 1)) ∧
    ((scheduled_days ⟨2, "B", 10, 3, "", 2, 1, ["Squats"]⟩).isEmpty ∧
     layout_index_repscycles ⟨2, "B", 10, 3, "", 2, 1, ["Squats"]⟩ = (10, 3)) :=
  ⟨⟨by decide,
    (layout_index_occurrence_fixed_at_one ⟨1, "A", 10, 3, "Mon,Wed,Mon", 2, 1, ["Squats"]⟩).1
      (by decide)⟩,
   ⟨by decide,
    (layout_index_occurrence_fixed_at_one ⟨2, "B", 10, 3, "", 2, 1, ["Squats"]⟩).2
      (by decide)⟩⟩

/-! ## C3 -/

/-- C3 fails on the code: on the `index remove 1` path, after the index
validation succeeds, `do_index` evaluates the undefined name `skip_confirm`
and raises `NameError`; the `__main__` loop catches only
`KeyboardInterrupt`, so this exception is NOT confined to the command and
terminates the process, contradicting the claim that no command path raises
an unhandled exception. -/
theorem index_remove_raises_unhandled :
    do_index_remove [removeTargetGroup] ["1"] =
      Except.error (PyExc.nameError "skip_confirm") ∧
    mainLoopCatches (PyExc.nameError "skip_confirm") = false :=
  ⟨rfl, rfl⟩

/-! ## C1 -/

/-- C1 fails on the code: `_layout_core` assigns occurrence indices by slot
POSITION in the whole `days` list (`enumerate(days_list, start=1)`), not by
per-weekday match counting.  For `days = Mon,Wed,Mon` the builder gives the
`Wed` slot occurrence 2, while counting `Wed` slots up to and including that
slot gives 1; likewise the second `Mon` slot gets occurrence 3, not 2. -/
theorem occurrence_not_match_count :
    matchingSlots mwmGroup "Wed" = [2] ∧
    ((parse_days mwmGroup.days).take 2).count "Wed" = 1 ∧
    matchingSlots mwmGroup "Mon" = [1, 3] ∧
    ((parse_days mwmGroup.days).take 3).count "Mon" = 2 ∧
    matchingSlots mwmGroup "Wed" ≠ [1] ∧
    matchingSlots mwmGroup "Mon" ≠ [1, 2] := by decide

/-- C1 amended: occurrence indexing is per-slot POSITION and stable per
group: a slot's occurrence index is its 1-based position among ALL slots of
the group's `days` list (`k ∈ matchingSlots g day` exactly when slot `k-1`
holds `day`), independent of calendar date (no date appears in the
computation). -/
theorem occurrence_is_slot_position (g : GroupRec) (day : String) (k : Nat) :
    k ∈ matchingSlots g day ↔
      1 ≤ k ∧ (parse_days g.days).get? (k - 1) = some day := by
  unfold matchingSlots
  constructor
  · intro h
    obtain ⟨⟨i, a⟩, hmem, hf⟩ := List.mem_filterMap.1 h
    by_cases hd : a = day
    · subst hd
      rw [if_pos rfl] at hf
      obtain rfl := Option.some.inj hf
      have hg := List.mem_enum_iff_get?.1 hmem
      exact ⟨Nat.succ_le_succ (Nat.zero_le i), by simpa using hg⟩
    · rw [if_neg hd] at hf
      cases hf
  · rintro ⟨hk, hget⟩
    apply List.mem_filterMap.2
    refine ⟨(k - 1, day), List.mem_enum_iff_get?.2 hget, ?_⟩
    simp [Nat.sub_add_cancel hk]

/-! ## C7 -/

/-- C7: a group whose parsed `days` list is empty (unscheduled) contributes
no workout entry to any weekday's bucket, so it appears on none of the 7
dates; and a date whose weekday has zero matching slots across all groups
produces no section at all — no date header and no blank lines. -/
theorem unscheduled_group_never_rendered (s : Settings) (groups : List GroupRec)
    (g : GroupRec) (hg : g ∈ groups) (hdays : parse_days g.days = []) :
    (∀ day k, (g, k) ∉ dayWorkouts groups day) ∧
    (∀ d : Date, dayWorkouts groups (weekdayShortName d) = [] →
      date_section s groups d = []) := by
  constructor
  · intro day k hmem
    unfold dayWorkouts at hmem
    obtain ⟨g2, hg2, hin⟩ := List.mem_flatMap.1 hmem
    obtain ⟨⟨i, a⟩, hia, hf⟩ := List.mem_filterMap.1 hin
    by_cases hd : a = day
    · rw [if_pos hd] at hf
      obtain ⟨hgg, -⟩ := Prod.mk.injEq .. ▸ Option.some.inj hf
      subst hgg
      rw [hdays] at hia
      simp at hia
    · rw [if_neg hd] at hf
      cases hf
  · intro d hzero
    unfold date_section
    rw [hzero]
    rfl

/-- Witness for C7: the unscheduled `naGroup` inside a two-group store. -/
theorem unscheduled_group_never_rendered_witness :
    (naGroup ∈ [naGroup, monGroup] ∧ parse_days naGroup.days = []) ∧
    ((∀ day k, (naGroup, k) ∉ dayWorkouts [naGroup, monGroup] day) ∧
     (∀ d : Date, dayWorkouts [naGroup, monGroup] (weekdayShortName d) = [] →
       date_section defaultSettings [naGroup, monGroup] d = [])) :=
  ⟨⟨by decide, by decide⟩,
   unscheduled_group_never_rendered defaultSettings [naGroup, monGroup] naGroup
     (by decide) (by decide)⟩

/-! ## C4 -/

lemma do_log_add_no_blocks (groups : List GroupRec) (d : Date)
    (hne : groups ≠ [])
    (hblocks : groups.flatMap (fun g => logGroupBlock g (weekdayShortName d)) = []) :
    do_log_add groups d =
      ⟨["No workouts scheduled for " ++ weekdayFullName d ++ " (" ++
          weekdayShortName d ++ "), nothing added."], none⟩ := by
  unfold do_log_add
  rw [if_neg (by simp [hne]), if_pos (by simp [hblocks])]

lemma logGroupBlock_eq_nil (g : GroupRec) (day : String)
    (h : day ∉ log_split_days g.days ∨ g.exercises = []) :
    logGroupBlock g day = [] := by
  rcases h with h1 | h1
  · simp [logGroupBlock, h1]
  · simp [logGroupBlock, h1]

/-- C4's message clause fails in one corner: an EMPTY store also has zero
matching groups, and there `log add` still writes nothing but reports
`No workout groups available.` instead of the nothing-scheduled message
(January 1, 2024 is a Monday). -/
theorem log_empty_store_message_differs :
    (do_log_add [] ⟨2024, 1, 1⟩).sinkWrite = none ∧
    (do_log_add [] ⟨2024, 1, 1⟩).console = ["No workout groups available."] ∧
    (do_log_add [] ⟨2024, 1, 1⟩).console ≠
      ["No workouts scheduled for Monday (Mon), nothing added."] := by decide

/-- C4 amended: for every store state and target date with zero matching
groups (no group's day list contains the date's weekday, or every matching
group has zero exercises), `log add` writes zero bytes — the sink's byte
content is unchanged — and reports an informational no-op, not an error:
the "nothing scheduled" message whenever the store is non-empty, and
`No workout groups available.` for the empty store. -/
theorem log_no_match_writes_nothing (groups : List GroupRec) (d : Date)
    (prior : String)
    (h : ∀ g ∈ groups, weekdayShortName d ∉ log_split_days g.days ∨ g.exercises = []) :
    (do_log_add groups d).sinkWrite = none ∧
    sinkAfter prior (do_log_add groups d).sinkWrite = prior ∧
    (groups ≠ [] →
      (do_log_add groups d).console =
        ["No workouts scheduled for " ++ weekdayFullName d ++ " (" ++
          weekdayShortName d ++ "), nothing added."]) ∧
    (groups = [] →
      (do_log_add groups d).console = ["No workout groups available."]) := by
  cases hg : groups with
  | nil =>
    exact ⟨rfl, rfl, fun hne => absurd rfl hne, fun _ => rfl⟩
  | cons a t =>
    have hblocks :
        (a :: t).flatMap (fun g => logGroupBlock g (weekdayShortName d)) = [] := by
      rw [List.flatMap_def]
      apply List.flatten_eq_nil_iff.2
      intro l hl
      obtain ⟨g, hgm, rfl⟩ := List.mem_map.1 hl
      exact logGroupBlock_eq_nil g _ (h g (hg ▸ hgm))
    rw [do_log_add_no_blocks (a :: t) d (by simp) hblocks]
    exact ⟨rfl, rfl, fun _ => rfl, fun hc => by cases hc⟩

/-- Witness for C4: a Tuesday-only group queried on Monday, January 1, 2024,
with prior sink content `LOG`. -/
theorem log_no_match_writes_nothing_witness :
    (∀ g ∈ [tueGroup], weekdayShortName ⟨2024, 1, 1⟩ ∉ log_split_days g.days ∨
       g.exercises = []) ∧
    ((do_log_add [tueGroup] ⟨2024, 1, 1⟩).sinkWrite = none ∧
     sinkAfter "LOG" (do_log_add [tueGroup] ⟨2024, 1, 1⟩).sinkWrite = "LOG" ∧
     ([tueGroup] ≠ ([] : List GroupRec) →
       (do_log_add [tueGroup] ⟨2024, 1, 1⟩).console =
         ["No workouts scheduled for " ++ weekdayFullName ⟨2024, 1, 1⟩ ++ " (" ++
           weekdayShortName ⟨2024, 1, 1⟩ ++ "), nothing added."]) ∧
     ([tueGroup] = ([] : List GroupRec) →
       (do_log_add [tueGroup] ⟨2024, 1, 1⟩).console =
         ["No workout groups available."])) :=
  ⟨by decide, log_no_match_writes_nothing [tueGroup] ⟨2024, 1, 1⟩ "LOG" (by decide)⟩

/-! ## C5 -/

lemma first_match_position (day : String) (L : List String) :
    ∀ n : Nat,
      (match (L.enumFrom n).find? (fun p => p.2 = day) with
       | some p => p.1 + 1
       | none => 1) =
      ((L.enumFrom n).filterMap
        (fun p => if p.2 = day then some (p.1 + 1) else none)).headD 1 := by
  induction L with
  | nil => intro n; rfl
  | cons a t ih =>
    intro n
    by_cases hd : a = day
    · simp [List.enumFrom_cons, List.find?_cons, hd]
    · simp only [List.enumFrom_cons, List.find?_cons, List.filterMap_cons]
      rw [if_neg hd]
      have : (decide (a = day)) = false := decide_eq_false hd
      rw [this]
      exact ih (n + 1)

lemma log_days_nonempty_of_valid (days : String)
    (hwf : ∀ x ∈ log_split_days days, x ∈ validDaysOrder) :
    log_days_nonempty days = log_split_days days := by
  unfold log_days_nonempty
  apply List.filter_eq_self.2
  intro a ha
  have hv := hwf a ha
  simp only [validDaysOrder, List.mem_cons, List.not_mem_nil, or_false] at hv
  rcases hv with h | h | h | h | h | h | h <;> subst h <;> decide

lemma parse_days_of_valid (days : String)
    (hwf : ∀ x ∈ log_split_days days, x ∈ validDaysOrder) :
    parse_days days = log_split_days days := by
  unfold parse_days
  apply List.filter_eq_self.2
  intro a ha
  exact decide_eq_true (hwf a ha)

/-- C5 fails on the code: `do_log` emits one block per matching GROUP, not
one per matching slot.  For a group with `days = Mon,Mon` logged on Monday,
January 1, 2024, the weekly builder has two Monday slots (occurrences 1 and
2, reps 12 and 14) but the appended log text contains a single block, at
occurrence 1 only. -/
theorem log_not_one_block_per_slot :
    weekdayShortName ⟨2024, 1, 1⟩ = "Mon" ∧
    matchingSlots dupGroup "Mon" = [1, 2] ∧
    logGroupBlock dupGroup "Mon" = ["\nG:", "1. Squats", "12 reps", "4 cycles"] ∧
    (do_log_add [dupGroup] ⟨2024, 1, 1⟩).sinkWrite =
      some ("Workout Log for 01/01/24 (Mon):\n\nG:\n1. Squats\n12 reps\n4 cycles\n"
        ++ separator40 ++ "\n") := by decide

/-- C5 amended: for every group whose stored day tokens are all valid
weekday names, if the target date's weekday occurs in the group's day list
and the group has exercises, the log appender emits exactly ONE block for
that group, whose occurrence index equals the index the weekly layout
builder assigns to the group's FIRST matching slot, and whose reps/cycles
are the same projection at that index; duplicate weekday slots are not
serialized separately. -/
theorem log_block_is_first_layout_slot (g : GroupRec) (day : String)
    (hwf : ∀ x ∈ log_split_days g.days, x ∈ validDaysOrder)
    (hmatch : day ∈ log_split_days g.days) (hex : g.exercises ≠ []) :
    get_occurrence_index g.days day = (matchingSlots g day).headD 1 ∧
    logGroupBlock g day =
      ("\n" ++ g.name ++ ":") :: numberedExercises g.exercises ++
        [toString (project g.reps_per_cycle g.cycles_per_circuit g.add_reps
            g.add_cycles ((matchingSlots g day).headD 1)).1 ++ " reps",
         toString (project g.reps_per_cycle g.cycles_per_circuit g.add_reps
            g.add_cycles ((matchingSlots g day).headD 1)).2 ++ " cycles"] := by
  have h1 : get_occurrence_index g.days day = (matchingSlots g day).headD 1 := by
    unfold get_occurrence_index matchingSlots
    rw [log_days_nonempty_of_valid g.days hwf, parse_days_of_valid g.days hwf]
    exact first_match_position day (log_split_days g.days) 0
  refine ⟨h1, ?_⟩
  have hexb : g.exercises.isEmpty = false := by
    cases hex2 : g.exercises with
    | nil => exact absurd hex2 hex
    | cons a t => rfl
  unfold logGroupBlock
  rw [if_pos hmatch, hexb, h1]
  simp

/-- Witness for C5 amended: the `Wed,Mon` group on Monday — the log block
uses occurrence 2, the weekly builder's first (and only) Monday slot. -/
theorem log_block_is_first_layout_slot_witness :
    ((∀ x ∈ log_split_days wedMonGroup.days, x ∈ validDaysOrder) ∧
     "Mon" ∈ log_split_days wedMonGroup.days ∧ wedMonGroup.exercises ≠ []) ∧
    (get_occurrence_index wedMonGroup.days "Mon" =
       (matchingSlots wedMonGroup "Mon").headD 1 ∧
     logGroupBlock wedMonGroup "Mon" =
       ("\n" ++ wedMonGroup.name ++ ":") :: numberedExercises wedMonGroup.exercises ++
         [toString (project wedMonGroup.reps_per_cycle wedMonGroup.cycles_per_circuit
             wedMonGroup.add_reps wedMonGroup.add_cycles
             ((matchingSlots wedMonGroup "Mon").headD 1)).1 ++ " reps",
          toString (project wedMonGroup.reps_per_cycle wedMonGroup.cycles_per_circuit
             wedMonGroup.add_reps wedMonGroup.add_cycles
             ((matchingSlots wedMonGroup "Mon").headD 1)).2 ++ " cycles"]) :=
  ⟨⟨by decide, by decide, by decide⟩,
   log_block_is_first_layout_slot wedMonGroup "Mon" (by decide) (by decide) (by decide)⟩

/-! ## C8 -/

lemma enumFrom_pairwise_fst {α : Type} (l : List α) :
    ∀ n : Nat, (l.enumFrom n).Pairwise (fun p q => p.1 < q.1) := by
  induction l with
  | nil => intro n; simp
  | cons a t ih =>
    intro n
    rw [List.enumFrom_cons]
    refine List.Pairwise.cons ?_ (ih (n + 1))
    intro q hq
    obtain ⟨i, x⟩ := q
    have h := (List.mem_enumFrom hq).1
    change n < i
    omega

lemma slot_fst_eq (g : GroupRec) (day : String) :
    ∀ q ∈ (parse_days g.days).enum.filterMap
      (fun p => if p.2 = day then some (g, p.1 + 1) else none), q.1 = g := by
  intro q hq
  obtain ⟨⟨i, a⟩, hmem, hf⟩ := List.mem_filterMap.1 hq
  by_cases hd : a = day
  · rw [if_pos hd] at hf
    obtain rfl := Option.some.inj hf
    rfl
  · rw [if_neg hd] at hf
    cases hf

lemma dayWorkouts_single_pairwise (g : GroupRec) (day : String) :
    ((parse_days g.days).enum.filterMap
      (fun p => if p.2 = day then some (g, p.1 + 1) else none)).Pairwise
      (fun q1 q2 => q1.1.id = q2.1.id ∧ q1.2 < q2.2) := by
  apply List.Pairwise.filterMap _ ?_ (enumFrom_pairwise_fst (parse_days g.days) 0)
  intro a a2 hlt b hb b2 hb2
  obtain ⟨i, x⟩ := a
  obtain ⟨j, y⟩ := a2
  by_cases hx : x = day
  · by_cases hy : y = day
    · rw [if_pos hx] at hb
      rw [if_pos hy] at hb2
      obtain rfl := (Option.some.inj (Option.mem_def.1 hb)).symm
      obtain rfl := (Option.some.inj (Option.mem_def.1 hb2)).symm
      exact ⟨rfl, Nat.succ_lt_succ hlt⟩
    · rw [if_neg hy] at hb2
      simp at hb2
  · rw [if_neg hx] at hb
    simp at hb

lemma dayWorkouts_pairwise (groups : List GroupRec) (day : String)
    (hsorted : groups.Pairwise (fun g1 g2 => g1.id < g2.id)) :
    (dayWorkouts groups day).Pairwise
      (fun q1 q2 => q1.1.id < q2.1.id ∨ (q1.1.id = q2.1.id ∧ q1.2 < q2.2)) := by
  unfold dayWorkouts
  rw [List.flatMap_def, List.pairwise_flatten]
  constructor
  · intro l hl
    obtain ⟨g, hg, rfl⟩ := List.mem_map.1 hl
    exact (dayWorkouts_single_pairwise g day).imp Or.inr
  · rw [List.pairwise_map]
    refine hsorted.imp ?_
    intro g1 g2 h12 x hx y hy
    exact Or.inl (by rw [slot_fst_eq g1 day x hx, slot_fst_eq g2 day y hy]; exact h12)

lemma layoutEntries_pairwise (groups : List GroupRec) (today : Date)
    (hsorted : groups.Pairwise (fun g1 g2 => g1.id < g2.id)) :
    (layoutEntries groups today).Pairwise entryLexLt := by
  unfold layoutEntries
  rw [List.flatMap_def, List.pairwise_flatten]
  constructor
  · intro l hl
    obtain ⟨p, hp, rfl⟩ := List.mem_map.1 hl
    rw [List.pairwise_map]
    refine (dayWorkouts_pairwise groups (weekdayShortName p.2) hsorted).imp ?_
    intro q1 q2 h12
    exact Or.inr ⟨rfl, h12⟩
  · rw [List.pairwise_map]
    refine (enumFrom_pairwise_fst (next7Days today) 0).imp ?_
    intro p1 p2 hlt x hx y hy
    obtain ⟨qx, hqx, rfl⟩ := List.mem_map.1 hx
    obtain ⟨qy, hqy, rfl⟩ := List.mem_map.1 hy
    exact Or.inl hlt

/-- C8: the weekly layout is deterministic and restartable — identical store
contents, `today` and settings give byte-identical output — and for a store
listed in ascending id order (as `SELECT ... ORDER BY id` delivers it) the
builder visits its entries in strictly increasing (date, group id,
days-slot position) lexicographic order; exercises inside each entry are
rendered by `numberedExercises` in insertion order by construction. -/
theorem weekly_layout_deterministic_ordered (s : Settings) (groups : List GroupRec)
    (today : Date) (hsorted : groups.Pairwise (fun g1 g2 => g1.id < g2.id)) :
    renderBytes (layout_core s groups today) = renderBytes (layout_core s groups today) ∧
    (layoutEntries groups today).Pairwise entryLexLt :=
  ⟨rfl, layoutEntries_pairwise groups today hsorted⟩

/-- Witness for C8: a concrete two-group store in ascending id order. -/
theorem weekly_layout_deterministic_ordered_witness :
    ([monGroup, wedMonGroup].Pairwise (fun g1 g2 => g1.id < g2.id)) ∧
    (renderBytes (layout_core defaultSettings [monGroup, wedMonGroup] ⟨2024, 1, 1⟩) =
       renderBytes (layout_core defaultSettings [monGroup, wedMonGroup] ⟨2024, 1, 1⟩) ∧
     (layoutEntries [monGroup, wedMonGroup] ⟨2024, 1, 1⟩).Pairwise entryLexLt) :=
  ⟨by decide,
   weekly_layout_deterministic_ordered defaultSettings [monGroup, wedMonGroup]
     ⟨2024, 1, 1⟩ (by decide)⟩
